import Mathlib

/-!
Verification of the slinky oracle core against its natural-language
specification.  The Go source is shallowly embedded: byte strings become
`List Nat`, fallible calls return `Except String`/`Option String`, the
consensus context is reduced to the data the handlers actually read
(the vote-extensions-enabled flag and the block height), and the
collaborators supplied by the framework (downstream prepare/process
handlers, the vote-extension validator, the canonical marshaller) are
function parameters.
-/

namespace Slinky

/-! ### abci/proposals/proposals.go -/

/-- A transaction is an opaque byte string (`[]byte` in Go). -/
abbrev Tx := List Nat

/-- `NumInjectedTxs` from proposals.go: the number of synthetic
transactions injected into the proposal. -/
def NumInjectedTxs : Nat := 1

/-- `OracleInfoIndex` from proposals.go: the index of the oracle info in
the proposal. -/
def OracleInfoIndex : Nat := 0

/-- `cometabci.RequestPrepareProposal`, restricted to the fields the
handler reads: the height, the local last extended commit info (of
abstract type `ECI`), and the transactions. -/
structure RequestPrepareProposal (ECI : Type) where
  height : Int
  localLastCommit : ECI
  txs : List Tx

/-- `cometabci.ResponsePrepareProposal`, restricted to the `Txs` field. -/
structure ResponsePrepareProposal where
  txs : List Tx
deriving DecidableEq

/-- `cometabci.RequestProcessProposal`, restricted to the fields the
handler reads. -/
structure RequestProcessProposal where
  height : Int
  txs : List Tx
deriving DecidableEq

/-- The status of `cometabci.ResponseProcessProposal`. -/
inductive ProposalStatus where
  | ACCEPT
  | REJECT
deriving DecidableEq

/-- `cometabci.ResponseProcessProposal`, restricted to the status. -/
structure ResponseProcessProposal where
  status : ProposalStatus
deriving DecidableEq

/-- `ProposalHandler.PrepareProposalHandler` from proposals.go.

Parameters stand for the data the closure reads from its environment:
`voteExtensionsEnabled` is `ve.VoteExtensionsEnabled(ctx)`;
`validateVoteExtensionsFn height extInfo` is
`h.ValidateExtendedCommitInfo(ctx, height, extInfo)` (`none` = no error);
`marshal` is `extInfo.Marshal()`; `prepareHandler` is the wrapped
`h.prepareProposalHandler` (returning a response and an error).  The
request may be `none`, modelling a nil `*RequestPrepareProposal`.  The
result is the returned response together with the returned error. -/
def prepareProposalHandler {ECI : Type}
    (voteExtensionsEnabled : Bool)
    (validateVoteExtensionsFn : Int → ECI → Option String)
    (marshal : ECI → Except String Tx)
    (prepareHandler : RequestPrepareProposal ECI → ResponsePrepareProposal × Option String)
    (req? : Option (RequestPrepareProposal ECI)) :
    ResponsePrepareProposal × Option String :=
  match req? with
  | none => (⟨[]⟩, some "received a nil request")
  | some req =>
    if voteExtensionsEnabled then
      match validateVoteExtensionsFn req.height req.localLastCommit with
      | some e => (⟨[]⟩, some e)
      | none =>
        match marshal req.localLastCommit with
        | .error e => (⟨[]⟩, some e)
        | .ok extInfoBz =>
          match prepareHandler { req with txs := extInfoBz :: req.txs } with
          | (_, some e) => (⟨[]⟩, some e)
          | (resp, none) =>
            -- if the embedded handler threw out the injected data, re-inject it
            if resp.txs.isEmpty || !(resp.txs.headD [] == extInfoBz) then
              (⟨extInfoBz :: resp.txs⟩, none)
            else
              (resp, none)
    else
      -- with vote extensions disabled the request is passed through unchanged
      -- and the re-injection guard is never taken
      match prepareHandler req with
      | (_, some e) => (⟨[]⟩, some e)
      | (resp, none) => (resp, none)

/-- `ProposalHandler.ProcessProposalHandler` from proposals.go.

Same parameter conventions as `prepareProposalHandler`; `unmarshal` is
`extInfo.Unmarshal(req.Txs[OracleInfoIndex])`.  A `none` request models a
nil `*RequestProcessProposal`: the Go body dereferences `req`
immediately (it has no nil guard), which panics; the panic is modelled
as the outer `none` result. -/
def processProposalHandler {ECI : Type}
    (voteExtensionsEnabled : Bool)
    (validateVoteExtensionsFn : Int → ECI → Option String)
    (unmarshal : Tx → Except String ECI)
    (processHandler : RequestProcessProposal → ResponseProcessProposal × Option String)
    (req? : Option RequestProcessProposal) :
    Option (ResponseProcessProposal × Option String) :=
  match req? with
  | none => none
  | some req =>
    some (
      if voteExtensionsEnabled then
        if req.txs.length < NumInjectedTxs then
          (⟨.REJECT⟩, some "missing commit info")
        else
          match unmarshal (req.txs.getD OracleInfoIndex []) with
          | .error e => (⟨.REJECT⟩, some e)
          | .ok extInfo =>
            match validateVoteExtensionsFn req.height extInfo with
            | some e => (⟨.REJECT⟩, some e)
            | none =>
              -- process the transactions with the oracle data removed
              processHandler { req with txs := req.txs.drop NumInjectedTxs }
      else
        processHandler req)

/-- Characterisation of a successful `PrepareProposalHandler` run with
vote extensions enabled: the validator accepted the local commit info,
the marshal succeeded with some bytes `bz`, and the returned `Txs` list
starts with `bz`. -/
theorem prepare_success_spec {ECI : Type}
    (validate : Int → ECI → Option String)
    (marshal : ECI → Except String Tx)
    (inner : RequestPrepareProposal ECI → ResponsePrepareProposal × Option String)
    (req : RequestPrepareProposal ECI)
    (hok : (prepareProposalHandler true validate marshal inner (some req)).2 = none) :
    ∃ bz rest,
      validate req.height req.localLastCommit = none ∧
      marshal req.localLastCommit = .ok bz ∧
      (prepareProposalHandler true validate marshal inner (some req)).1.txs = bz :: rest := by
  simp only [prepareProposalHandler, if_true] at hok ⊢
  cases hval : validate req.height req.localLastCommit with
  | some e => simp [hval] at hok
  | none =>
    simp only [hval] at hok ⊢
    cases hm : marshal req.localLastCommit with
    | error e => simp [hm] at hok
    | ok bz =>
      simp only [hm] at hok ⊢
      cases hi : inner { req with txs := bz :: req.txs } with
      | mk resp err =>
        simp only [hi] at hok ⊢
        cases err with
        | some e => simp at hok
        | none =>
          cases hc : (resp.txs.isEmpty || !(resp.txs.headD [] == bz)) with
          | true =>
            simp only [hc, if_true]
            exact ⟨bz, resp.txs, trivial, rfl, rfl⟩
          | false =>
            have hcond := hc
            simp only [Bool.or_eq_false_iff, Bool.not_eq_false'] at hcond
            obtain ⟨hne, heq⟩ := hcond
            cases htxs : resp.txs with
            | nil => rw [htxs] at hne; simp at hne
            | cons a t =>
              rw [htxs] at heq
              simp only [List.headD_cons, beq_iff_eq] at heq
              refine ⟨bz, t, trivial, rfl, ?_⟩
              simp only [hc, Bool.false_eq_true, if_false]
              rw [htxs, heq]

/-- A validator that accepts every extended commit info; used to
instantiate the handler theorems at concrete inputs. -/
def wValidate : Int → Nat → Option String := fun _ _ => none

/-- A validator that rejects every extended commit info. -/
def wValidateReject : Int → Nat → Option String := fun _ _ => some "invalid vote extensions"

/-- A concrete canonical marshaller for `Nat`-valued commit infos. -/
def wMarshal : Nat → Except String Tx := fun n => .ok [n]

/-- The matching unmarshaller: accepts exactly the singleton byte
strings produced by `wMarshal`. -/
def wUnmarshal : Tx → Except String Nat := fun bz =>
  match bz with
  | [n] => .ok n
  | _ => .error "unmarshal failure"

/-- A downstream prepare handler that keeps the transactions as given. -/
def wPrepareInner : RequestPrepareProposal Nat → ResponsePrepareProposal × Option String :=
  fun r => (⟨r.txs⟩, none)

/-- A downstream process handler that accepts everything. -/
def wProcessInner : RequestProcessProposal → ResponseProcessProposal × Option String :=
  fun _ => (⟨.ACCEPT⟩, none)

/-- A concrete prepare request: height 1, commit info 7, one inner tx. -/
def wPrepareReq : RequestPrepareProposal Nat := ⟨1, 7, [[21]]⟩

/-- Claim C1: for every PrepareProposal request with vote extensions
enabled that returns successfully, the first transaction of the returned
proposal equals the canonical marshaled bytes of the validated extended
commit info (the handler re-prepends them if the downstream handler
dropped or displaced them). -/
theorem C1_prepare_txs_head_is_commit_info {ECI : Type}
    (validate : Int → ECI → Option String)
    (marshal : ECI → Except String Tx)
    (inner : RequestPrepareProposal ECI → ResponsePrepareProposal × Option String)
    (req : RequestPrepareProposal ECI)
    (hok : (prepareProposalHandler true validate marshal inner (some req)).2 = none) :
    ∃ bz, marshal req.localLastCommit = .ok bz ∧
      (prepareProposalHandler true validate marshal inner (some req)).1.txs.head? = some bz := by
  obtain ⟨bz, rest, _, hm, htxs⟩ := prepare_success_spec validate marshal inner req hok
  exact ⟨bz, hm, by rw [htxs]; rfl⟩

/-- Witness for C1 at a concrete instantiation. -/
theorem C1_witness :
    ∃ bz, wMarshal wPrepareReq.localLastCommit = .ok bz ∧
      (prepareProposalHandler true wValidate wMarshal wPrepareInner
        (some wPrepareReq)).1.txs.head? = some bz :=
  C1_prepare_txs_head_is_commit_info wValidate wMarshal wPrepareInner wPrepareReq rfl

/-- Claim C2: ProcessProposal with vote extensions enabled and an empty
transaction list returns REJECT with the error "missing commit info". -/
theorem C2_process_empty_txs_rejects {ECI : Type}
    (validate : Int → ECI → Option String)
    (unmarshal : Tx → Except String ECI)
    (inner : RequestProcessProposal → ResponseProcessProposal × Option String)
    (height : Int) :
    processProposalHandler true validate unmarshal inner (some ⟨height, []⟩)
      = some (⟨.REJECT⟩, some "missing commit info") := rfl

/-- Claim C3: when the vote-extension validator rejects, PrepareProposal
returns empty Txs with the validation error and ProcessProposal returns
REJECT with the validation error; ProcessProposal also returns REJECT
with the unmarshalling error when Txs[0] fails to unmarshal. -/
theorem C3_validator_rejection_propagates {ECI : Type}
    (validate : Int → ECI → Option String)
    (marshal : ECI → Except String Tx)
    (unmarshal : Tx → Except String ECI)
    (prepInner : RequestPrepareProposal ECI → ResponsePrepareProposal × Option String)
    (procInner : RequestProcessProposal → ResponseProcessProposal × Option String)
    (preq : RequestPrepareProposal ECI) (e1 : String)
    (hval1 : validate preq.height preq.localLastCommit = some e1)
    (height : Int) (t0 : Tx) (rest : List Tx) (eci : ECI) (e2 : String)
    (hu : unmarshal t0 = .ok eci) (hval2 : validate height eci = some e2)
    (t0b : Tx) (restb : List Tx) (e3 : String)
    (hub : unmarshal t0b = .error e3) :
    prepareProposalHandler true validate marshal prepInner (some preq) = (⟨[]⟩, some e1)
    ∧ processProposalHandler true validate unmarshal procInner (some ⟨height, t0 :: rest⟩)
        = some (⟨.REJECT⟩, some e2)
    ∧ processProposalHandler true validate unmarshal procInner (some ⟨height, t0b :: restb⟩)
        = some (⟨.REJECT⟩, some e3) := by
  refine ⟨?_, ?_, ?_⟩
  · simp [prepareProposalHandler, hval1]
  · simp [processProposalHandler, NumInjectedTxs, OracleInfoIndex, hu, hval2]
  · simp [processProposalHandler, NumInjectedTxs, OracleInfoIndex, hub]

/-- Witness for C3 at a concrete instantiation. -/
theorem C3_witness :
    prepareProposalHandler true wValidateReject wMarshal wPrepareInner (some wPrepareReq)
        = (⟨[]⟩, some "invalid vote extensions")
    ∧ processProposalHandler true wValidateReject wUnmarshal wProcessInner (some ⟨1, [[7]]⟩)
        = some (⟨.REJECT⟩, some "invalid vote extensions")
    ∧ processProposalHandler true wValidateReject wUnmarshal wProcessInner (some ⟨1, [[7, 8]]⟩)
        = some (⟨.REJECT⟩, some "unmarshal failure") :=
  C3_validator_rejection_propagates wValidateReject wMarshal wUnmarshal wPrepareInner
    wProcessInner wPrepareReq "invalid vote extensions" rfl 1 [7] [] 7
    "invalid vote extensions" rfl rfl [7, 8] [] "unmarshal failure" rfl

/-- Claim C4: ProcessProposal with vote extensions enabled whose first
transaction unmarshals and validates strips exactly the first
transaction (`NumInjectedTxs = 1`) and returns the downstream handler's
result on the remaining transactions verbatim; with vote extensions
disabled it delegates the request unchanged. -/
theorem C4_process_strips_and_delegates {ECI : Type}
    (validate : Int → ECI → Option String)
    (unmarshal : Tx → Except String ECI)
    (inner : RequestProcessProposal → ResponseProcessProposal × Option String)
    (height : Int) (t0 : Tx) (rest : List Tx) (eci : ECI)
    (hu : unmarshal t0 = .ok eci) (hval : validate height eci = none)
    (reqD : RequestProcessProposal) :
    processProposalHandler true validate unmarshal inner (some ⟨height, t0 :: rest⟩)
        = some (inner ⟨height, (t0 :: rest).drop NumInjectedTxs⟩)
    ∧ (t0 :: rest).drop NumInjectedTxs = rest
    ∧ processProposalHandler false validate unmarshal inner (some reqD) = some (inner reqD) := by
  refine ⟨?_, rfl, rfl⟩
  simp [processProposalHandler, NumInjectedTxs, OracleInfoIndex, hu, hval]

/-- Witness for C4 at a concrete instantiation. -/
theorem C4_witness :
    processProposalHandler true wValidate wUnmarshal wProcessInner (some ⟨1, [[7], [1, 2], [3]]⟩)
        = some (wProcessInner ⟨1, ([[7], [1, 2], [3]] : List Tx).drop NumInjectedTxs⟩)
    ∧ ([[7], [1, 2], [3]] : List Tx).drop NumInjectedTxs = [[1, 2], [3]]
    ∧ processProposalHandler false wValidate wUnmarshal wProcessInner (some ⟨1, [[9]]⟩)
        = some (wProcessInner ⟨1, [[9]]⟩) :=
  C4_process_strips_and_delegates wValidate wUnmarshal wProcessInner 1 [7] [[1, 2], [3]] 7
    rfl rfl ⟨1, [[9]]⟩

/-- Claim C5: a proposal built by a successful PrepareProposal is
accepted by ProcessProposal on a peer with the same validator view and a
canonical (round-tripping) serialization: the injected Txs[0]
unmarshals to the same extended commit info, that commit info passes the
validator, and the stripped transactions are handed to the downstream
handler verbatim. -/
theorem C5_prepare_process_roundtrip {ECI : Type}
    (validate : Int → ECI → Option String)
    (marshal : ECI → Except String Tx)
    (unmarshal : Tx → Except String ECI)
    (prepInner : RequestPrepareProposal ECI → ResponsePrepareProposal × Option String)
    (procInner : RequestProcessProposal → ResponseProcessProposal × Option String)
    (req : RequestPrepareProposal ECI)
    (hrt : ∀ (eci : ECI) (bz : Tx), marshal eci = .ok bz → unmarshal bz = .ok eci)
    (hok : (prepareProposalHandler true validate marshal prepInner (some req)).2 = none) :
    unmarshal ((prepareProposalHandler true validate marshal prepInner
        (some req)).1.txs.getD OracleInfoIndex []) = .ok req.localLastCommit
    ∧ validate req.height req.localLastCommit = none
    ∧ processProposalHandler true validate unmarshal procInner
        (some ⟨req.height,
          (prepareProposalHandler true validate marshal prepInner (some req)).1.txs⟩)
      = some (procInner ⟨req.height,
          (prepareProposalHandler true validate marshal prepInner
            (some req)).1.txs.drop NumInjectedTxs⟩) := by
  obtain ⟨bz, rest, hval, hm, htxs⟩ := prepare_success_spec validate marshal prepInner req hok
  have hu : unmarshal bz = .ok req.localLastCommit := hrt _ bz hm
  refine ⟨?_, hval, ?_⟩
  · rw [htxs]
    simpa [OracleInfoIndex] using hu
  · rw [htxs]
    simp [processProposalHandler, NumInjectedTxs, OracleInfoIndex, hu, hval]

/-- Witness for C5 at a concrete instantiation. -/
theorem C5_witness :
    wUnmarshal ((prepareProposalHandler true wValidate wMarshal wPrepareInner
        (some wPrepareReq)).1.txs.getD OracleInfoIndex []) = .ok wPrepareReq.localLastCommit
    ∧ wValidate wPrepareReq.height wPrepareReq.localLastCommit = none
    ∧ processProposalHandler true wValidate wUnmarshal wProcessInner
        (some ⟨wPrepareReq.height,
          (prepareProposalHandler true wValidate wMarshal wPrepareInner
            (some wPrepareReq)).1.txs⟩)
      = some (wProcessInner ⟨wPrepareReq.height,
          (prepareProposalHandler true wValidate wMarshal wPrepareInner
            (some wPrepareReq)).1.txs.drop NumInjectedTxs⟩) :=
  C5_prepare_process_roundtrip wValidate wMarshal wUnmarshal wPrepareInner wProcessInner
    wPrepareReq (fun eci bz h => by injection h with h2; subst h2; rfl) rfl

/-- Claim C10: a nil PrepareProposal request yields an empty-Txs
response with the error "received a nil request"; ProcessProposal has no
such guard: a nil request is dereferenced immediately (modelled as the
`none` result, the Go code would panic). -/
theorem C10_nil_request_guard {ECI : Type}
    (ve : Bool)
    (validate : Int → ECI → Option String)
    (marshal : ECI → Except String Tx)
    (unmarshal : Tx → Except String ECI)
    (prepInner : RequestPrepareProposal ECI → ResponsePrepareProposal × Option String)
    (procInner : RequestProcessProposal → ResponseProcessProposal × Option String) :
    prepareProposalHandler ve validate marshal prepInner none
        = (⟨[]⟩, some "received a nil request")
    ∧ processProposalHandler ve validate unmarshal procInner none = none :=
  ⟨rfl, rfl⟩

/-! ### service/client (GRPCClient) -/

/-- `client.GRPCClient`: the address and timeout set by the constructor,
and the oracle-client and connection handles, which are nil (`none`)
until `Start` succeeds.  Handles are abstract `Nat` tokens. -/
structure GRPCClient where
  addr : String
  timeout : Nat
  client : Option Nat
  conn : Option Nat

/-- `client.NewGRPCClient`: only the address and timeout are set; the
`client` and `conn` fields keep their zero value, nil. -/
def NewGRPCClient (addr : String) (t : Nat) : GRPCClient :=
  { addr := addr, timeout := t, client := none, conn := none }

/-- `GRPCClient.Start`: dials the remote oracle service; on success
stores the connection and the oracle client wrapping it, on failure
returns the wrapped error and leaves the client unchanged.  `dial`
stands for `grpc.Dial`. -/
def GRPCClient.Start (c : GRPCClient) (dial : String → Except String Nat) :
    Except String GRPCClient :=
  match dial c.addr with
  | .error err => .error ("failed to dial oracle gRPC server: " ++ err)
  | .ok conn => .ok { c with client := some conn, conn := some conn }

/-- `GRPCClient.Stop`: executes `c.conn.Close()`.  `close` stands for
`(*grpc.ClientConn).Close`, which dereferences its receiver; when the
client was never started `c.conn` is nil and the call panics, modelled
as the `none` result. -/
def GRPCClient.Stop (c : GRPCClient) (close : Nat → Option String) :
    Option (Option String) :=
  match c.conn with
  | none => none
  | some h => some (close h)

/-- `GRPCClient.Prices`: if the oracle client is nil, returns a nil
response with the "oracle client not started" error; otherwise forwards
the request to the remote client.  `remote` stands for
`c.client.Prices(ctx, req, grpc.WaitForReady(true))`. -/
def GRPCClient.Prices {Req Resp : Type} (c : GRPCClient)
    (remote : Nat → Req → Option Resp × Option String) (req : Req) :
    Option Resp × Option String :=
  match c.client with
  | none => (none, some "oracle client not started")
  | some cl => remote cl req

/-- Claim C8: on a GRPCClient whose Start has not been called or has not
succeeded (`client = none`, as after `NewGRPCClient`), `Prices` returns
a nil response with the "oracle client not started" error; the result
does not depend on the remote at all, so no remote call is made. -/
theorem C8_prices_not_started {Req Resp : Type} (c : GRPCClient)
    (hc : c.client = none)
    (remote : Nat → Req → Option Resp × Option String) (req : Req)
    (addr : String) (t : Nat) :
    c.Prices remote req = (none, some "oracle client not started")
    ∧ (NewGRPCClient addr t).client = none := by
  constructor
  · simp [GRPCClient.Prices, hc]
  · rfl

/-- Witness for C8 at a concrete instantiation. -/
theorem C8_witness :
    (NewGRPCClient "localhost:8080" 5).Prices
        (fun (_ : Nat) (_ : Unit) => ((some 0 : Option Nat), (none : Option String))) ()
      = (none, some "oracle client not started")
    ∧ (NewGRPCClient "localhost:8080" 5).client = none :=
  C8_prices_not_started (NewGRPCClient "localhost:8080" 5) rfl
    (fun _ _ => (some 0, none)) () "localhost:8080" 5

/-- Claim C9 (evaluation at the failing input): `Stop` on a client that
was never started finds `conn = none` and executes `c.conn.Close()` on a
nil connection, which panics (the `none` result); so `Stop` is not safe
to call before `Start`, contrary to the claim. -/
theorem C9_stop_before_start_is_nil_close :
    (NewGRPCClient "localhost:8080" 5).Stop (fun _ => none) = none := rfl

/-! ### oracle/types median aggregation

The implementation of `types.ComputeMedian` is not part of the
repository snapshot; only its test (`TestComputeMedian` in
providers/websockets/mexc/utils.go) is.  The aggregation is therefore
modelled from the spec (section 4.3) and checked against the test's
expectations. -/

/-- Modelled from the spec: `oracletypes.CurrencyPair` (not in the
snapshot) — a pair of symbols with structural equality. -/
structure CurrencyPair where
  Base : String
  Quote : String
deriving DecidableEq

/-- Modelled from the spec: `types.QuotePrice` (not in the snapshot),
restricted to the price value; `none` is the nil "no price yet"
sentinel that the aggregator must ignore. -/
structure QuotePrice where
  Price : Option Nat
deriving DecidableEq

/-- Per-provider prices: currency pair to the most recent quote (the Go
map is modelled as an association list). -/
abbrev ProviderPrices := List (CurrencyPair × QuotePrice)

/-- `types.AggregatedProviderPrices` (not in the snapshot): provider
name to that provider's prices. -/
abbrev AggregatedProviderPrices := List (String × ProviderPrices)

/-- Association-list lookup standing for the Go map access
`prices[pair]`. -/
def lookupPair (cp : CurrencyPair) : ProviderPrices → Option QuotePrice
  | [] => none
  | (cp2, q) :: rest => if cp2 = cp then some q else lookupPair cp rest

/-- Association-list lookup into the aggregated snapshot. -/
def lookupPrice (cp : CurrencyPair) : List (CurrencyPair × Nat) → Option Nat
  | [] => none
  | (cp2, v) :: rest => if cp2 = cp then some v else lookupPrice cp rest

/-- Modelled from the spec: step 1 of the aggregation algorithm of
`types.ComputeMedian` (not in the snapshot) — for a pair P, the list of
valid quote values: providers that have an entry for P whose value is
not the nil sentinel.  (The test exercises no timestamps; the staleness
filter applies upstream in the price cache.) -/
def collectValues (pp : AggregatedProviderPrices) (cp : CurrencyPair) : List Nat :=
  pp.filterMap (fun entry => (lookupPair cp entry.2).bind (fun q => q.Price))

/-- All pairs referenced by any provider, first occurrence first. -/
def pairsOf (pp : AggregatedProviderPrices) : List CurrencyPair :=
  pp.foldl
    (fun acc entry =>
      entry.2.foldl (fun acc2 pq => if pq.1 ∈ acc2 then acc2 else acc2 ++ [pq.1]) acc)
    []

/-- Modelled from the spec: step 3 of the aggregation algorithm — the
deterministic median: sort ascending; odd size takes the middle
element; even size takes the integer mean `(a + b) / 2` of the two
middle elements, truncated (values are naturals here, so the 257-bit
wide accumulation of the spec is exact). -/
def medianNat (V : List Nat) : Nat :=
  let s := List.insertionSort (fun x y => x ≤ y) V
  if s.length % 2 = 1 then
    s.getD (s.length / 2) 0
  else
    (s.getD (s.length / 2 - 1) 0 + s.getD (s.length / 2) 0) / 2

/-- Modelled from the spec: `types.ComputeMedian` (not in the snapshot)
— for each pair collect the valid values; omit the pair if there are
none; otherwise insert the median. -/
def ComputeMedian (pp : AggregatedProviderPrices) : List (CurrencyPair × Nat) :=
  (pairsOf pp).filterMap (fun cp =>
    let v := collectValues pp cp
    if v.isEmpty then none else some (cp, medianNat v))

/-- BTC/USD. -/
def btcusd : CurrencyPair := ⟨"BTC", "USD"⟩

/-- ETH/USD. -/
def ethusd : CurrencyPair := ⟨"ETH", "USD"⟩

/-- USDT/USD. -/
def usdtusd : CurrencyPair := ⟨"USDT", "USD"⟩

/-- The two-provider scenario of the claim and of the test:
A: BTC/USD 100, ETH/USD 200; B: BTC/USD 200, ETH/USD 300. -/
def twoProviderPrices : AggregatedProviderPrices :=
  [("A", [(btcusd, ⟨some 100⟩), (ethusd, ⟨some 200⟩)]),
   ("B", [(btcusd, ⟨some 200⟩), (ethusd, ⟨some 300⟩)])]

/-- The nil-sentinel scenario of the test: provider2 additionally
carries a nil USDT/USD quote, which must be ignored. -/
def nilQuotePrices : AggregatedProviderPrices :=
  [("provider1", [(btcusd, ⟨some 100⟩), (ethusd, ⟨some 200⟩)]),
   ("provider2", [(btcusd, ⟨some 200⟩), (ethusd, ⟨some 300⟩), (usdtusd, ⟨none⟩)])]

/-- Claim C7: a quote whose price value is nil is ignored by the median
computation (only non-nil values enter the collected set), and a pair
whose set of valid quote values is empty is omitted from the snapshot;
on the test's nil-sentinel input the snapshot holds exactly BTC/USD 150
and ETH/USD 250 and no USDT/USD entry. -/
theorem C7_nil_ignored_empty_omitted (pp : AggregatedProviderPrices)
    (cp : CurrencyPair) (v m : Nat) :
    (v ∈ collectValues pp cp ↔
      ∃ name prices, (name, prices) ∈ pp ∧ lookupPair cp prices = some ⟨some v⟩)
    ∧ (collectValues pp cp = [] → (cp, m) ∉ ComputeMedian pp)
    ∧ ComputeMedian nilQuotePrices = [(btcusd, 150), (ethusd, 250)] := by
  refine ⟨⟨?_, ?_⟩, ?_, rfl⟩
  · intro hv
    obtain ⟨entry, hmem, hf⟩ := List.mem_filterMap.mp hv
    obtain ⟨q, hq, hp⟩ := Option.bind_eq_some.mp hf
    refine ⟨entry.1, entry.2, hmem, ?_⟩
    cases q with
    | mk p =>
      have hp2 : p = some v := hp
      rw [hq, hp2]
  · rintro ⟨name, prices, hmem, hl⟩
    refine List.mem_filterMap.mpr ⟨(name, prices), hmem, ?_⟩
    simp only [hl]
    rfl
  · intro hempty hmem
    obtain ⟨cp2, _, hsome⟩ := List.mem_filterMap.mp hmem
    simp only at hsome
    by_cases hcpe : (collectValues pp cp2).isEmpty = true
    · rw [if_pos hcpe] at hsome
      exact Option.noConfusion hsome
    · rw [if_neg hcpe] at hsome
      injection hsome with h1
      have hcp : cp2 = cp := congrArg Prod.fst h1
      subst hcp
      rw [hempty] at hcpe
      exact hcpe rfl

/-- Witness for C7: the nil USDT/USD quote yields an empty valid set and
USDT/USD is omitted from the snapshot. -/
theorem C7_witness : (usdtusd, 0) ∉ ComputeMedian nilQuotePrices :=
  (C7_nil_ignored_empty_omitted nilQuotePrices usdtusd 0 0).2.1 rfl

/-- Claim C6: for an even-sized valid set the aggregated median is the
integer mean `(a + b) / 2` of the two middle elements of the set sorted
ascending, truncated toward zero; the sum of two 256-bit values fits in
257 bits and the mean is again a 256-bit value; the two-provider
scenario aggregates BTC/USD to 150 and ETH/USD to 250. -/
theorem C6_even_median_is_truncated_mean (V : List Nat) (a b : Nat)
    (hne : V ≠ []) (heven : V.length % 2 = 0)
    (ha : a < 2 ^ 256) (hb : b < 2 ^ 256) :
    (medianNat V
        = ((List.insertionSort (fun x y => x ≤ y) V).getD (V.length / 2 - 1) 0
            + (List.insertionSort (fun x y => x ≤ y) V).getD (V.length / 2) 0) / 2
      ∧ (List.insertionSort (fun x y => x ≤ y) V).getD (V.length / 2 - 1) 0
          ≤ (List.insertionSort (fun x y => x ≤ y) V).getD (V.length / 2) 0)
    ∧ (a + b < 2 ^ 257 ∧ (a + b) / 2 < 2 ^ 256)
    ∧ (lookupPrice btcusd (ComputeMedian twoProviderPrices) = some 150
        ∧ lookupPrice ethusd (ComputeMedian twoProviderPrices) = some 250) := by
  have hlen : (List.insertionSort (fun x y => x ≤ y) V).length = V.length :=
    List.length_insertionSort _ V
  have hVpos : 0 < V.length := List.length_pos.mpr hne
  have h2le : 2 ≤ V.length := by omega
  have h257 : (2 : Nat) ^ 257 = 2 ^ 256 + 2 ^ 256 := by
    rw [pow_succ]
    ring
  have hab := Nat.add_lt_add ha hb
  refine ⟨⟨?_, ?_⟩, ⟨by omega, by omega⟩, rfl, rfl⟩
  · simp only [medianNat]
    rw [if_neg (by rw [hlen]; omega), hlen]
  · have hsorted := List.sorted_insertionSort (fun x y => x ≤ y) V
    have hi1 : V.length / 2 - 1 < (List.insertionSort (fun x y => x ≤ y) V).length := by
      rw [hlen]; omega
    have hi2 : V.length / 2 < (List.insertionSort (fun x y => x ≤ y) V).length := by
      rw [hlen]; omega
    rw [List.getD_eq_getElem _ _ hi1, List.getD_eq_getElem _ _ hi2]
    have hfin : (⟨V.length / 2 - 1, hi1⟩ : Fin _) < ⟨V.length / 2, hi2⟩ := by
      simp only [Fin.mk_lt_mk]
      omega
    exact hsorted.rel_get_of_lt hfin

/-- Witness for C6 at V = [100, 200] and a = b = 2^256 - 1. -/
theorem C6_witness :
    (medianNat [100, 200]
        = ((List.insertionSort (fun x y => x ≤ y) [100, 200]).getD
              (([100, 200] : List Nat).length / 2 - 1) 0
            + (List.insertionSort (fun x y => x ≤ y) [100, 200]).getD
              (([100, 200] : List Nat).length / 2) 0) / 2
      ∧ (List.insertionSort (fun x y => x ≤ y) [100, 200]).getD
            (([100, 200] : List Nat).length / 2 - 1) 0
          ≤ (List.insertionSort (fun x y => x ≤ y) [100, 200]).getD
            (([100, 200] : List Nat).length / 2) 0)
    ∧ (2 ^ 256 - 1 + (2 ^ 256 - 1) < 2 ^ 257
        ∧ (2 ^ 256 - 1 + (2 ^ 256 - 1)) / 2 < 2 ^ 256)
    ∧ (lookupPrice btcusd (ComputeMedian twoProviderPrices) = some 150
        ∧ lookupPrice ethusd (ComputeMedian twoProviderPrices) = some 250) :=
  C6_even_median_is_truncated_mean [100, 200] (2 ^ 256 - 1) (2 ^ 256 - 1)
    (by simp) rfl (Nat.sub_lt (Nat.two_pow_pos 256) Nat.one_pos)
    (Nat.sub_lt (Nat.two_pow_pos 256) Nat.one_pos)

end Slinky
